import Mathlib

/-!
Verification development for the my-links repository.

Shallow embedding of the link-extraction core:
* `EmailLink` and `EmailLink.withCategorization`
  (src/domain/entities/EmailLink.ts),
* `ExtractLinksUseCase` — `isTwitterUrl`, `analyzeLink`, `analyzeLinks`,
  `exportResults`, `handleRetryQueue`, `getRateLimitWaitTime`,
  `waitForRateLimitReset`, `retryQueuedLinks`
  (src/application/ExtractLinksUseCase.ts),
* `TwitterScraper.fetchWithRetry` response handling
  (src/infrastructure/adapters/TwitterScraper.ts, the rate-limit-aware
  variant),
* `ExportService.exportResults` (src/application/services/ExportService.ts),
* the ingestion template `ingest` = validate → fetch → normalize → enrich
  with the `UnstructuredDataSource` / `StructuredDataSource` validations
  (src/domain/entities/AbstractDataSource.ts and friends),
* the multi-cycle retry loop of `RetryHandlerService` /
  `LinkExtractionOrchestrator` (modelled from the spec, see below).

Conventions: JavaScript timestamps (`Date.now()`, `new Date()`) are `Nat`
milliseconds passed explicitly; promises that may reject are `Except String`;
`null`-able values are `Option`; JS string falsiness (null or "") is made
explicit where the source relies on it.
-/

/-- Domain entity EmailLink (url, tag, description, sourceFile, createdAt,
updatedAt).  All fields are `readonly` in the source; the structure is
immutable here by construction. -/
structure EmailLink where
  url : String
  tag : String
  description : String
  sourceFile : String
  createdAt : Nat
  updatedAt : Nat
deriving Repr, DecidableEq

/-- `EmailLink.withCategorization`: returns a fresh link carrying the new
tag/description; `url`, `sourceFile`, `createdAt` are copied from `this`,
`updatedAt` is `new Date()` (passed here as `now`). -/
def EmailLink.withCategorization (l : EmailLink) (tag description : String)
    (now : Nat) : EmailLink :=
  { url := l.url
    tag := tag
    description := description
    sourceFile := l.sourceFile
    createdAt := l.createdAt
    updatedAt := now }

/-- `EmailLink.isComplete`: url, tag and description all non-empty. -/
def EmailLink.isComplete (l : EmailLink) : Bool :=
  l.url.length > 0 && l.tag.length > 0 && l.description.length > 0

/-- Character-level helper for JS `String.prototype.includes`: does the
second list occur at the head of the first? -/
def startsWithChars : List Char → List Char → Bool
  | _, [] => true
  | [], _ :: _ => false
  | c :: s, p :: ps => (c == p) && startsWithChars s ps

/-- Does the second list occur anywhere inside the first? -/
def hasSubChars : List Char → List Char → Bool
  | _, [] => true
  | [], _ :: _ => false
  | c :: s, p :: ps =>
    startsWithChars (c :: s) (p :: ps) || hasSubChars s (p :: ps)

/-- JS `a.includes(b)` on strings. -/
def includesStr (s pat : String) : Bool :=
  hasSubChars s.data pat.data

/-- `ExtractLinksUseCase.isTwitterUrl`:
`url.includes('twitter.com/') || url.includes('x.com/') || url.includes('t.co/')`. -/
def isTwitterUrl (url : String) : Bool :=
  includesStr url "twitter.com/" || includesStr url "x.com/" ||
    includesStr url "t.co/"

/-- Result of `ILinkAnalyzer.analyze`. -/
structure LinkAnalysis where
  tag : String
  description : String
deriving Repr, DecidableEq

/-- JS truthiness of the `tweetContent` variable (`string | null`):
falsy iff null or the empty string. -/
def contentTruthy : Option String → Bool
  | none => false
  | some s => s ≠ ""

/-- `ExtractLinksUseCase.analyzeLink`.  Collaborators are passed as pure
functions: `scraper` is `tweetScraper.fetchTweetContent`, `rateLimited` the
value of `tweetScraper.isRateLimited()` at the check, `analyzer` is
`linkAnalyzer.analyze` (second argument is `tweetContent || undefined`).
Returns `(categorized, shouldRetry)`. -/
def analyzeLink (scraper : String → Option String) (rateLimited : Bool)
    (analyzer : String → Option String → LinkAnalysis) (now : Nat)
    (link : EmailLink) : EmailLink × Bool :=
  let isTw := isTwitterUrl link.url
  let tweetContent : Option String := if isTw then scraper link.url else none
  let analysis :=
    analyzer link.url (if contentTruthy tweetContent then tweetContent else none)
  let categorized := link.withCategorization analysis.tag analysis.description now
  let shouldRetry :=
    isTw && (analysis.tag == "Unknown") && !(contentTruthy tweetContent) &&
      rateLimited
  (categorized, shouldRetry)

/-- A retry-queue entry as built by `analyzeLinks`
(`interface QueuedLink { link; index }`). -/
structure QueuedLink where
  link : EmailLink
  index : Nat
deriving Repr, DecidableEq

/-- Loop body of `ExtractLinksUseCase.analyzeLinks`.  `analyze` is the whole
per-link call (it may throw, which the `catch` branch turns into pushing the
original link).  Accumulates the categorized list, the retry queue and the
number of `logger.error` calls made by the `catch` branch. -/
def analyzeLinksAux (analyze : EmailLink → Except String (EmailLink × Bool)) :
    List EmailLink → List EmailLink → List QueuedLink → Nat →
    List EmailLink × List QueuedLink × Nat
  | [], acc, queue, errs => (acc, queue, errs)
  | l :: rest, acc, queue, errs =>
    match analyze l with
    | Except.ok (categorized, shouldRetry) =>
      let acc := acc ++ [categorized]
      let queue := if shouldRetry then queue ++ [⟨l, acc.length - 1⟩] else queue
      analyzeLinksAux analyze rest acc queue errs
    | Except.error _ =>
      analyzeLinksAux analyze rest (acc ++ [l]) queue (errs + 1)

/-- `ExtractLinksUseCase.analyzeLinks`. -/
def analyzeLinks (analyze : EmailLink → Except String (EmailLink × Bool))
    (links : List EmailLink) : List EmailLink × List QueuedLink × Nat :=
  analyzeLinksAux analyze links [] [] 0

/-- The per-link result the `analyzeLinks` loop appends: the categorized
link on success, the original (pre-analysis) link when the analysis threw. -/
def analyzedOrOriginal (analyze : EmailLink → Except String (EmailLink × Bool))
    (l : EmailLink) : EmailLink :=
  match analyze l with
  | Except.ok (categorized, _) => categorized
  | Except.error _ => l

/-- `ExtractLinksUseCase.MAX_WAIT_SECONDS = 15 * 60`
(also `ExtractLinksConfig.RATE_LIMIT.MAX_WAIT_SECONDS`). -/
def MAX_WAIT_SECONDS : Nat := 15 * 60

/-- `ExtractLinksUseCase.RATE_LIMIT_BUFFER_MS = 5000`
(also `ExtractLinksConfig.RATE_LIMIT.BUFFER_MS`). -/
def RATE_LIMIT_BUFFER_MS : Nat := 5000

/-- `ExtractLinksUseCase.COUNTDOWN_INTERVAL = 10`
(also `ExtractLinksConfig.RATE_LIMIT.COUNTDOWN_INTERVAL`). -/
def COUNTDOWN_INTERVAL : Nat := 10

/-- `ExtractLinksConfig.RATE_LIMIT.MAX_RETRY_ATTEMPTS = 3`. -/
def MAX_RETRY_ATTEMPTS : Nat := 3

/-- JS `Math.ceil(x / 1000)` on an integer number of milliseconds. -/
def ceilDiv1000 (x : Int) : Int := -(Int.fdiv (-x) 1000)

/-- `ExtractLinksUseCase.getRateLimitWaitTime`:
`Math.ceil((resetTime - Date.now()) / 1000)` in seconds. -/
def getRateLimitWaitTime (resetTime now : Nat) : Int :=
  ceilDiv1000 ((resetTime : Int) - (now : Int))

/-- Ceiling division on naturals (used for wait-loop fuel accounting). -/
def ceilDivNat (a b : Nat) : Nat := (a + b - 1) / b

/-- The countdown loop of `ExtractLinksUseCase.waitForRateLimitReset`:
`while (Date.now() < endWait) { remaining = ceil((endWait - now)/1000);
if (remaining > 0 && remaining % COUNTDOWN_INTERVAL === 0) spinner.update(...);
await sleep(1000) }`.  Time advances in discrete 1000 ms ticks; the result is
the clock value at loop exit together with the list of `remaining` values at
which `spinner.update` fired. -/
def waitLoop : Nat → Nat → Nat → Nat × List Nat
  | 0, now, _ => (now, [])
  | fuel + 1, now, endWait =>
    if now < endWait then
      let remaining := ceilDivNat (endWait - now) 1000
      let update :=
        if remaining > 0 && remaining % COUNTDOWN_INTERVAL == 0 then [remaining]
        else []
      let rest := waitLoop fuel (now + 1000) endWait
      (rest.1, update ++ rest.2)
    else (now, [])

/-- `ExtractLinksUseCase.waitForRateLimitReset`:
`endWait = tweetScraper.getRateLimitResetTime() + RATE_LIMIT_BUFFER_MS`, then
the countdown loop; afterwards `tweetScraper.clearRateLimit()` is called (see
`handleRetryQueue` below for the call ordering).  The fuel is exactly the
number of 1000 ms ticks the loop needs. -/
def waitForRateLimitReset (resetTime now : Nat) : Nat × List Nat :=
  let endWait := resetTime + RATE_LIMIT_BUFFER_MS
  waitLoop (ceilDivNat (endWait - now) 1000) now endWait

/-- Loop body of `ExtractLinksUseCase.retryQueuedLinks`.  `retryLink` is the
whole `this.retryLink(link)` call: it may throw (caught and logged), return
`null` (content still unavailable) or return the enriched link.  On success
the enriched link is written in place at the entry's index
(`categorizedLinks[index] = enriched`) and the url added to `updatedUrls`. -/
def retryQueuedLinksAux (retryLink : EmailLink → Except String (Option EmailLink)) :
    List QueuedLink → List EmailLink → List String →
    List EmailLink × List String
  | [], links, urls => (links, urls)
  | q :: rest, links, urls =>
    match retryLink q.link with
    | Except.ok (some enriched) =>
      retryQueuedLinksAux retryLink rest (links.set q.index enriched)
        (urls ++ [q.link.url])
    | Except.ok none => retryQueuedLinksAux retryLink rest links urls
    | Except.error _ => retryQueuedLinksAux retryLink rest links urls

/-- `ExtractLinksUseCase.retryQueuedLinks`: one retry pass over the queue;
returns the (in-place updated) result collection and the set of successfully
enriched urls. -/
def retryQueuedLinks (retryLink : EmailLink → Except String (Option EmailLink))
    (queue : List QueuedLink) (links : List EmailLink) :
    List EmailLink × List String :=
  retryQueuedLinksAux retryLink queue links []

/-- Observable outcome of `ExtractLinksUseCase.exportResults`.  The CSV write
is not guarded by a try/catch (a CSV failure rejects the whole call, modelled
one level up); the Notion block is guarded. -/
structure ExportUCResult where
  csvWritten : Bool
  notionWriteOk : Bool
  /-- urls handed to `notionWriter.updatePages`, when that call is made -/
  updatePagesArg : Option (List String)
  notionErrorLogged : Bool
deriving Repr, DecidableEq

/-- `ExtractLinksUseCase.exportResults` after a successful CSV write:
`try { notionWriter.write(...); if (updatedUrls && updatedUrls.size > 0)
notionWriter.updatePages(links, dbId, updatedUrls) } catch { log error; log
"CSV export was successful" }`.  `notionR` is the outcome of
`notionWriter.write`. -/
def exportResultsUC (notionR : Except String Unit)
    (updatedUrls : Option (List String)) : ExportUCResult :=
  match notionR with
  | Except.ok _ =>
    { csvWritten := true
      notionWriteOk := true
      updatePagesArg :=
        match updatedUrls with
        | some urls => if urls.length > 0 then some urls else none
        | none => none
      notionErrorLogged := false }
  | Except.error _ =>
    { csvWritten := true
      notionWriteOk := false
      updatePagesArg := none
      notionErrorLogged := true }

/-- Observable outcome of `ExportService.exportResults` when it resolves. -/
structure ExportESOutcome where
  csvCommitted : Bool
  notionErrorCaught : Bool
deriving Repr, DecidableEq

/-- `ExportService.exportResults` = `exportToCsv` then `exportToNotion`.
`csvR` is the outcome of `csvWriter.write` (a rejection propagates: CSV is
the primary sink), `notionR` of `notionWriter.write` and `updR` of
`notionWriter.updatePages`; the whole Notion block is inside `try/catch`, so
a Notion failure is logged and the call still resolves. -/
def exportServiceExportResults (csvR notionR updR : Except String Unit)
    (updatedUrls : Option (List String)) : Except String ExportESOutcome :=
  match csvR with
  | Except.error e => Except.error e
  | Except.ok _ =>
    match notionR with
    | Except.error _ => Except.ok { csvCommitted := true, notionErrorCaught := true }
    | Except.ok _ =>
      match updatedUrls with
      | some urls =>
        if urls.length > 0 then
          match updR with
          | Except.error _ =>
            Except.ok { csvCommitted := true, notionErrorCaught := true }
          | Except.ok _ =>
            Except.ok { csvCommitted := true, notionErrorCaught := false }
        else Except.ok { csvCommitted := true, notionErrorCaught := false }
      | none => Except.ok { csvCommitted := true, notionErrorCaught := false }

/-- One HTTP response as seen by `TwitterScraper.fetchWithRetry`.
`rateLimitReset` is the `x-rate-limit-reset` header (epoch seconds) when
present; `body` is `data.data.text` when that field is present and truthy. -/
structure HttpResponse where
  status : Nat
  rateLimitReset : Option Nat
  body : Option String
deriving Repr, DecidableEq

/-- The response-handling loop of `TwitterScraper.fetchWithRetry`
(rate-limit-aware variant).  `state` is `this.rateLimitResetTime` (ms).  The
list holds the responses of successive attempts (`maxRetries + 1` of them at
most); a non-empty tail means another retry attempt is allowed.
* 429: record the reset time (seconds × 1000) when the header is present and
  return null;
* other non-2xx: 401/403 return null without retrying; ≥ 500 retries while
  attempts remain; anything else returns null;
* 2xx: return the tweet text (null when absent).
Returns the final `rateLimitResetTime` and the fetched content. -/
def fetchWithRetry (state : Nat) : List HttpResponse → Nat × Option String
  | [] => (state, none)
  | r :: rest =>
    if r.status == 429 then
      (match r.rateLimitReset with
       | some t => (t * 1000, none)
       | none => (state, none))
    else if !(200 ≤ r.status && r.status < 300 : Bool) then
      if r.status == 401 || r.status == 403 then (state, none)
      else if 500 ≤ r.status && rest.length > 0 then fetchWithRetry state rest
      else (state, none)
    else (state, r.body)

/-- `TwitterScraper.isRateLimited`: `rateLimitResetTime > Date.now()`. -/
def scraperIsRateLimited (rateLimitResetTime now : Nat) : Bool :=
  rateLimitResetTime > now

/-- Events of the retry phase (`ExtractLinksUseCase.handleRetryQueue`), in
program order. -/
inductive REvent where
  /-- the `Wait time exceeds 15 minutes` warning -/
  | warnedSkip : REvent
  /-- the single cooperative sleep, until the given clock value -/
  | waitedUntil (endWait : Nat) : REvent
  /-- `tweetScraper.clearRateLimit()` -/
  | clearedRateLimit : REvent
  /-- one retry attempt for the given queued url -/
  | retriedOne (url : String) : REvent
  /-- a `csvWriter.write` of the current result collection -/
  | wroteCsv : REvent
  /-- the final `exportResults` call -/
  | exported : REvent
deriving Repr, DecidableEq

/-- Result of `ExtractLinksUseCase.handleRetryQueue`, with its event trace. -/
structure HandleRetryResult where
  events : List REvent
  exportedLinks : List EmailLink
  updatedUrls : Option (List String)
  countdownUpdates : List Nat
deriving Repr, DecidableEq

/-- `ExtractLinksUseCase.handleRetryQueue`: compute `waitSeconds`; when it
exceeds `MAX_WAIT_SECONDS`, warn and export the untouched collection with no
updated-url set; otherwise wait once (`waitForRateLimitReset`, which ends by
clearing the rate limit), retry every queued link, rewrite the CSV and export
with the collected updated urls. -/
def handleRetryQueue (retryLink : EmailLink → Except String (Option EmailLink))
    (resetTime now : Nat) (queue : List QueuedLink) (links : List EmailLink) :
    HandleRetryResult :=
  let waitSeconds := getRateLimitWaitTime resetTime now
  if waitSeconds > (MAX_WAIT_SECONDS : Int) then
    { events := [REvent.warnedSkip, REvent.exported]
      exportedLinks := links
      updatedUrls := none
      countdownUpdates := [] }
  else
    let wait := waitForRateLimitReset resetTime now
    let retried := retryQueuedLinks retryLink queue links
    { events :=
        [REvent.waitedUntil (resetTime + RATE_LIMIT_BUFFER_MS),
         REvent.clearedRateLimit] ++
        queue.map (fun q => REvent.retriedOne q.link.url) ++
        [REvent.wroteCsv, REvent.exported]
      exportedLinks := retried.1
      updatedUrls := some retried.2
      countdownUpdates := wait.2 }

/-- A retry-queue entry of the multi-cycle retry subsystem
(`interface QueuedLink { link; index; attempts }` in
src/application/QueuedLink.types.ts; the spec's QueueEntry
{item, originalIndex, attempts}). -/
structure RetryEntry where
  url : String
  originalIndex : Nat
  attempts : Nat
deriving Repr, DecidableEq

/-- Modelled from the spec: outcome of one retry attempt on one queued entry,
as described in §4.3 for the missing `RetryHandlerService`
(src/application/services/RetryHandlerService.ts is absent from the
snapshot; only its declaration QueuedLink.types.ts, the
`ExtractLinksConfig.RATE_LIMIT.MAX_RETRY_ATTEMPTS` constant and the repo
docs survive).  `success` = the enrichment call resolved, `rateLimited` =
throttled again, `stalled` = neither resolved nor throttled (the external
service did not answer usefully), the case the no-progress guard exists
for. -/
inductive RetryOutcome where
  | success : RetryOutcome
  | rateLimited : RetryOutcome
  | stalled : RetryOutcome
deriving Repr, DecidableEq

/-- Modelled from the spec: one retry cycle over the queue
(`RetryHandlerService.handleRetryQueue`, missing from the snapshot).  Per
§4.3: an entry that succeeds is resolved and removed; an entry that is
rate-limited again has `attempts` incremented and is re-queued, unless the
incremented counter has reached `MAX_RETRY_ATTEMPTS`, in which case it is
`Exhausted`; a stalled entry stays queued unchanged.  Returns
(resolved, exhausted, remaining queue). -/
def runCycle (outcome : RetryEntry → RetryOutcome) :
    List RetryEntry → List RetryEntry × List RetryEntry × List RetryEntry
  | [] => ([], [], [])
  | e :: rest =>
    let r := runCycle outcome rest
    match outcome e with
    | RetryOutcome.success => (e :: r.1, r.2.1, r.2.2)
    | RetryOutcome.rateLimited =>
      let e2 : RetryEntry :=
        { url := e.url, originalIndex := e.originalIndex, attempts := e.attempts + 1 }
      if MAX_RETRY_ATTEMPTS ≤ e2.attempts then (r.1, e2 :: r.2.1, r.2.2)
      else (r.1, r.2.1, e2 :: r.2.2)
    | RetryOutcome.stalled => (r.1, r.2.1, e :: r.2.2)

/-- Termination measure for the retry loop: remaining attempt budget plus one
per queued entry. -/
def queueMeasure (queue : List RetryEntry) : Nat :=
  (queue.map (fun e => MAX_RETRY_ATTEMPTS - e.attempts + 1)).sum

/-- Final state of the multi-cycle retry loop. -/
structure LoopResult where
  resolved : List RetryEntry
  exhausted : List RetryEntry
  queue : List RetryEntry
  cycles : Nat
  /-- the loop stopped because a full cycle changed nothing: it resolved no
  entry, exhausted none and re-queued none with a higher counter -/
  stoppedNoProgress : Bool
deriving Repr, DecidableEq

/-- Modelled from the spec: the cycle loop of `LinkExtractionOrchestrator`
(absent from the snapshot; repo docs give it as
`while (queue.length > 0) { ... }` stopping when all succeed, the attempt
budget is exhausted, or a cycle makes no progress).  `outcome` gives each
cycle's per-entry result; `fuel` bounds the recursion and is chosen large
enough by `retryLoopRun` below. -/
def retryLoop (outcome : Nat → RetryEntry → RetryOutcome) :
    Nat → List RetryEntry → List RetryEntry → List RetryEntry → Nat → LoopResult
  | 0, queue, resolvedAcc, exhaustedAcc, cycles =>
    { resolved := resolvedAcc, exhausted := exhaustedAcc, queue := queue
      cycles := cycles, stoppedNoProgress := false }
  | fuel + 1, queue, resolvedAcc, exhaustedAcc, cycles =>
    if queue.isEmpty then
      { resolved := resolvedAcc, exhausted := exhaustedAcc, queue := queue
        cycles := cycles, stoppedNoProgress := false }
    else
      let c := runCycle (outcome cycles) queue
      if c.1.isEmpty && c.2.1.isEmpty && c.2.2 == queue then
        { resolved := resolvedAcc, exhausted := exhaustedAcc, queue := queue
          cycles := cycles + 1, stoppedNoProgress := true }
      else
        retryLoop outcome fuel c.2.2 (resolvedAcc ++ c.1)
          (exhaustedAcc ++ c.2.1) (cycles + 1)

/-- The retry loop run with sufficient fuel. -/
def retryLoopRun (outcome : Nat → RetryEntry → RetryOutcome)
    (queue : List RetryEntry) : LoopResult :=
  retryLoop outcome (queueMeasure queue + 1) queue [] [] 0

/-- The spec's §8 scenario: 3 queued entries, fresh attempt counters. -/
def demoQueue3 : List RetryEntry :=
  [{ url := "https://x.com/a/status/1", originalIndex := 0, attempts := 0 },
   { url := "https://x.com/b/status/2", originalIndex := 1, attempts := 0 },
   { url := "https://x.com/c/status/3", originalIndex := 2, attempts := 0 }]

/-- Every retry attempt of every cycle reports rate-limited. -/
def allRateLimited : Nat → RetryEntry → RetryOutcome :=
  fun _ _ => RetryOutcome.rateLimited

/-- Base configuration for data ingestion (`IngestionConfig` and its file /
API refinements).  `path` is `string` (possibly empty, JS-falsy);
`credentials` is a `Record<string, string>` or absent. -/
structure IngestionConfigM where
  since : Option Nat
  limit : Option Nat
  path : Option String
  credentials : Option (List (String × String))
deriving Repr, DecidableEq

/-- JS falsiness of the `path` field (`!fileConfig.path`): absent or "". -/
def pathFalsy (c : IngestionConfigM) : Bool :=
  match c.path with
  | none => true
  | some s => s == ""

/-- `UnstructuredDataSource.validateConfig`: throw
`"${sourceType}: path is required for file data sources"` when the path is
falsy, then run the subclass hook `validateFileConfig`. -/
def unstructuredValidateConfig (sourceType : String)
    (validateFileConfig : IngestionConfigM → Except String Unit)
    (config : IngestionConfigM) : Except String Unit :=
  if pathFalsy config then
    Except.error (sourceType ++ ": path is required for file data sources")
  else validateFileConfig config

/-- Default `validateFileConfig`: no additional validation. -/
def validateFileConfigDefault : IngestionConfigM → Except String Unit :=
  fun _ => Except.ok ()

/-- `StructuredDataSource.validateConfig`: throw
`"${sourceType}: credentials are required for API data sources"` when
`credentials` is absent (a present record, even empty, is truthy in JS),
then run the subclass hook `validateApiConfig`. -/
def structuredValidateConfig (sourceType : String)
    (validateApiConfig : IngestionConfigM → Except String Unit)
    (config : IngestionConfigM) : Except String Unit :=
  if config.credentials == none then
    Except.error (sourceType ++ ": credentials are required for API data sources")
  else validateApiConfig config

/-- Default `validateApiConfig`: no additional validation. -/
def validateApiConfigDefault : IngestionConfigM → Except String Unit :=
  fun _ => Except.ok ()

/-- `AbstractDataSource.ingest`, the template method:
`validateConfig → fetchRaw → normalize → enrich` (enrich defaults to the
identity). -/
def ingest {Raw Norm : Type}
    (validateConfig : IngestionConfigM → Except String Unit)
    (fetchRaw : IngestionConfigM → Except String (List Raw))
    (normalize : List Raw → Except String (List Norm))
    (enrich : List Norm → Except String (List Norm))
    (config : IngestionConfigM) : Except String (List Norm) := do
  validateConfig config
  let raw ← fetchRaw config
  let normalized ← normalize raw
  enrich normalized

/-- Methods declared by the `ITweetScraper` port
(src/domain/ports/ITweetScraper.ts). -/
def ITweetScraperOps : List String := ["fetchTweetContent"]

/-- Public instance methods of the `TwitterScraper` adapter (the
rate-limit-aware variant). -/
def TwitterScraperOps : List String :=
  ["getRateLimitResetTime", "isRateLimited", "fetchTweetContent"]

/-- Methods `ExtractLinksUseCase` invokes on its `tweetScraper` collaborator
(`analyzeLink`, `getRateLimitWaitTime`, `waitForRateLimitReset`,
`retryLink`). -/
def useCaseScraperCalls : List String :=
  ["fetchTweetContent", "isRateLimited", "getRateLimitResetTime",
   "clearRateLimit"]

/-- The spec's companion rate-limit capability: `isRateLimited`,
`getResetTime` (realized as `getRateLimitResetTime`), `clearRateLimit`. -/
def rateLimitCapabilityOps : List String :=
  ["isRateLimited", "getRateLimitResetTime", "clearRateLimit"]

/-- The tweet content `analyzeLink` actually hands to the analyzer:
`tweetContent || undefined` where `tweetContent` is fetched only for Twitter
urls. -/
def effectiveContent (scraper : String → Option String) (link : EmailLink) :
    Option String :=
  let tweetContent : Option String :=
    if isTwitterUrl link.url then scraper link.url else none
  if contentTruthy tweetContent then tweetContent else none

/-- A concrete Twitter link (witness data). -/
def demoTwitterLink : EmailLink :=
  { url := "https://x.com/a/status/1", tag := "", description := ""
    sourceFile := "m1.eml", createdAt := 0, updatedAt := 0 }

/-- A concrete non-categorized link (witness data). -/
def demoLink0 : EmailLink :=
  { url := "https://example.org/post", tag := "", description := ""
    sourceFile := "m0.eml", createdAt := 0, updatedAt := 0 }

/-- A concrete retry outcome used as witness data: always enrich with tag
`Tech`. -/
def demoRetry : EmailLink → Except String (Option EmailLink) :=
  fun l => Except.ok (some (l.withCategorization "Tech" "demo" 7))

/-- A concrete ingestion config with no path and no credentials
(witness data). -/
def demoEmptyConfig : IngestionConfigM :=
  { since := none, limit := none, path := none, credentials := none }


/-! ### Helper lemmas (shared) -/

theorem analyzeLinksAux_fst (analyze : EmailLink → Except String (EmailLink × Bool)) :
    ∀ (ls acc : List EmailLink) (queue : List QueuedLink) (errs : Nat),
      (analyzeLinksAux analyze ls acc queue errs).1 =
        acc ++ ls.map (analyzedOrOriginal analyze) := by
  intro ls
  induction ls with
  | nil => intro acc queue errs; simp [analyzeLinksAux]
  | cons l rest ih =>
    intro acc queue errs
    cases h : analyze l with
    | ok cr =>
      obtain ⟨c, r⟩ := cr
      simp only [analyzeLinksAux, h, ih, analyzedOrOriginal, List.map_cons,
        List.append_assoc, List.singleton_append]
    | error e =>
      simp only [analyzeLinksAux, h, ih, analyzedOrOriginal, List.map_cons,
        List.append_assoc, List.singleton_append]

theorem analyzeLinksAux_errs (analyze : EmailLink → Except String (EmailLink × Bool)) :
    ∀ (ls acc : List EmailLink) (queue : List QueuedLink) (errs : Nat),
      (analyzeLinksAux analyze ls acc queue errs).2.2 =
        errs + ls.countP (fun l => !(analyze l).isOk) := by
  intro ls
  induction ls with
  | nil => intro acc queue errs; simp [analyzeLinksAux]
  | cons l rest ih =>
    intro acc queue errs
    cases h : analyze l with
    | ok cr =>
      obtain ⟨c, r⟩ := cr
      simp [analyzeLinksAux, h, ih, List.countP_cons, Except.isOk, Except.toBool]
    | error e =>
      simp [analyzeLinksAux, h, ih, List.countP_cons, Except.isOk, Except.toBool]
      omega

/-! ### Claim theorems -/

/-- C10: `withCategorization` returns a new `EmailLink` in which only `tag`,
`description` and `updatedAt` change: `url`, `sourceFile` and `createdAt` are
copied from the original.  The original is untouched: every field is
`readonly` in the source and the embedding is a pure structure, so enrichment
and retry overwrites can never alter an item's identifier, provenance or
creation time. -/
theorem withCategorization_frame (l : EmailLink) (tag description : String)
    (now : Nat) :
    (l.withCategorization tag description now).url = l.url ∧
    (l.withCategorization tag description now).sourceFile = l.sourceFile ∧
    (l.withCategorization tag description now).createdAt = l.createdAt ∧
    (l.withCategorization tag description now).tag = tag ∧
    (l.withCategorization tag description now).description = description ∧
    (l.withCategorization tag description now).updatedAt = now :=
  ⟨rfl, rfl, rfl, rfl, rfl, rfl⟩

/-- C7: `analyzeLinks` recovers a thrown per-link error locally: the run
continues, the failing link appears in the output in its pre-analysis state,
the output has exactly one entry per input link in input order, and each
failure is counted (one `logger.error` per failing link). -/
theorem analyzeLinks_one_output_per_input
    (analyze : EmailLink → Except String (EmailLink × Bool))
    (links : List EmailLink) :
    (analyzeLinks analyze links).1 = links.map (analyzedOrOriginal analyze) ∧
    (analyzeLinks analyze links).1.length = links.length ∧
    (analyzeLinks analyze links).2.2 =
      links.countP (fun l => !(analyze l).isOk) := by
  refine ⟨?_, ?_, ?_⟩
  · simpa using analyzeLinksAux_fst analyze links [] [] 0
  · have h := analyzeLinksAux_fst analyze links [] [] 0
    simp [analyzeLinks, h]
  · simpa using analyzeLinksAux_errs analyze links [] [] 0

/-- C6: a failure of the secondary export sink never invalidates a prior
successful write: when the CSV write resolves and `notionWriter.write`
rejects, `ExportService.exportResults` still resolves (the error is caught at
sink granularity), with the CSV output committed. -/
theorem notion_failure_preserves_csv (updR : Except String Unit)
    (updatedUrls : Option (List String)) (e : String) :
    exportServiceExportResults (Except.ok ()) (Except.error e) updR updatedUrls =
      Except.ok { csvCommitted := true, notionErrorCaught := true } := rfl

/-- C2: when the first observed wait until the rate-limit reset exceeds
`MAX_WAIT_SECONDS`, `handleRetryQueue` performs no retry at all: the decision
is logged (`warnedSkip`), every queued item keeps its existing classification
(the exported collection is exactly the input collection), no updated-url set
is produced, and export proceeds immediately. -/
theorem waitCeiling_skips_retry
    (retryLink : EmailLink → Except String (Option EmailLink))
    (resetTime now : Nat) (queue : List QueuedLink) (links : List EmailLink)
    (h : getRateLimitWaitTime resetTime now > (MAX_WAIT_SECONDS : Int)) :
    handleRetryQueue retryLink resetTime now queue links =
      { events := [REvent.warnedSkip, REvent.exported]
        exportedLinks := links
        updatedUrls := none
        countdownUpdates := [] } := by
  simp [handleRetryQueue, h]

/-- Witness for C2 at a concrete far-away reset time. -/
theorem waitCeiling_skips_retry_witness :
    getRateLimitWaitTime 1000000000 0 > (MAX_WAIT_SECONDS : Int) ∧
    handleRetryQueue demoRetry 1000000000 0 [] [demoLink0] =
      { events := [REvent.warnedSkip, REvent.exported]
        exportedLinks := [demoLink0]
        updatedUrls := none
        countdownUpdates := [] } :=
  ⟨by decide, waitCeiling_skips_retry demoRetry 1000000000 0 [] [demoLink0] (by decide)⟩

/-- C9: `validateConfig` fails fast with a descriptive error naming the
missing required field, before any fetching occurs: a file-backed
(unstructured) source throws `path is required` when the path is absent, an
API-backed (structured) source throws `credentials are required` when the
credentials are absent; a validation error makes `ingest` reject with that
very error no matter what the fetch/normalize/enrich steps would do; and a
source overriding neither hook inherits no-op additional validation. -/
theorem validateConfig_fail_fast :
    (∀ (sourceType : String) (hook : IngestionConfigM → Except String Unit)
       (since limit : Option Nat) (credentials : Option (List (String × String))),
       unstructuredValidateConfig sourceType hook
           { since := since, limit := limit, path := none, credentials := credentials } =
         Except.error (sourceType ++ ": path is required for file data sources")) ∧
    (∀ (sourceType : String) (hook : IngestionConfigM → Except String Unit)
       (since limit : Option Nat) (path : Option String),
       structuredValidateConfig sourceType hook
           { since := since, limit := limit, path := path, credentials := none } =
         Except.error (sourceType ++ ": credentials are required for API data sources")) ∧
    (∀ (Raw Norm : Type) (validateConfig : IngestionConfigM → Except String Unit)
       (fetchRaw : IngestionConfigM → Except String (List Raw))
       (normalize : List Raw → Except String (List Norm))
       (enrich : List Norm → Except String (List Norm))
       (config : IngestionConfigM) (e : String),
       validateConfig config = Except.error e →
       ingest validateConfig fetchRaw normalize enrich config = Except.error e) ∧
    (∀ config : IngestionConfigM,
       validateFileConfigDefault config = Except.ok () ∧
       validateApiConfigDefault config = Except.ok ()) := by
  refine ⟨?_, ?_, ?_, ?_⟩
  · intro sourceType hook since limit credentials
    simp [unstructuredValidateConfig, pathFalsy]
  · intro sourceType hook since limit path
    simp [structuredValidateConfig]
  · intro Raw Norm validateConfig fetchRaw normalize enrich config e h
    simp [ingest, h, Bind.bind, Except.bind]
  · intro config
    exact ⟨rfl, rfl⟩

/-- Witness for C9: the fail-fast path on a concrete empty config, with a
fetch step that would otherwise succeed. -/
theorem validateConfig_fail_fast_witness :
    unstructuredValidateConfig "zip" validateFileConfigDefault demoEmptyConfig =
      Except.error "zip: path is required for file data sources" ∧
    ingest (unstructuredValidateConfig "zip" validateFileConfigDefault)
        (fun _ => Except.ok ([] : List Nat))
        (fun _ => Except.ok ([] : List Nat)) (fun ns => Except.ok ns)
        demoEmptyConfig =
      Except.error "zip: path is required for file data sources" := by
  have h := validateConfig_fail_fast
  refine ⟨?_, ?_⟩
  · exact h.1 "zip" validateFileConfigDefault none none none
  · exact h.2.2.1 Nat Nat _ _ _ _ demoEmptyConfig _
      (h.1 "zip" validateFileConfigDefault none none none)

/-- C8 counterexample: the claim says the tweet-scraper port and its
implementation provide all three rate-limit operations alongside
`fetchTweetContent`.  They do not: `clearRateLimit` is declared by neither
(and the port declares none of the three). -/
theorem port_lacks_rate_limit_ops :
    ¬ (rateLimitCapabilityOps.all (fun op => ITweetScraperOps.contains op) = true ∧
       rateLimitCapabilityOps.all (fun op => TwitterScraperOps.contains op) = true) := by
  decide

/-- C8 amended: the retry subsystem does consume the three rate-limit
operations (`isRateLimited`, `getRateLimitResetTime`, `clearRateLimit`) from
its tweet-scraper collaborator, alongside `fetchTweetContent`; but the
`ITweetScraper` port declares only `fetchTweetContent`, and the
`TwitterScraper` adapter provides `isRateLimited` and `getRateLimitResetTime`
while `clearRateLimit` exists only as a call site in the use case. -/
theorem rate_limit_ops_surface :
    rateLimitCapabilityOps.all (fun op => useCaseScraperCalls.contains op) = true ∧
    useCaseScraperCalls.contains "fetchTweetContent" = true ∧
    ITweetScraperOps = ["fetchTweetContent"] ∧
    TwitterScraperOps.contains "isRateLimited" = true ∧
    TwitterScraperOps.contains "getRateLimitResetTime" = true ∧
    TwitterScraperOps.contains "clearRateLimit" = false := by
  decide

/-- C3: an analyzed item is added to the retry queue iff the enrichment was
throttled with no fallback content: `shouldRetry` holds exactly when the url
is a Twitter url, the analysis (run without tweet content) returned tag
`Unknown`, the tweet-content fetch returned null and the scraper reports
being rate limited.  Hard/auth failures never enqueue: a response sequence
with no 429 (401/403 included) leaves `rateLimitResetTime` untouched, so a
previously un-throttled scraper still reports not-rate-limited and
`shouldRetry` is false; the item is kept with its best-available
classification (`analyzeLink` always returns the categorized link). -/
theorem retryQueue_admission_iff :
    (∀ (scraper : String → Option String) (rateLimited : Bool)
       (analyzer : String → Option String → LinkAnalysis) (now : Nat)
       (link : EmailLink), scraper link.url ≠ some "" →
       ((analyzeLink scraper rateLimited analyzer now link).2 = true ↔
         (isTwitterUrl link.url = true ∧ (analyzer link.url none).tag = "Unknown" ∧
          scraper link.url = none ∧ rateLimited = true))) ∧
    (∀ (state : Nat) (resps : List HttpResponse),
       (∀ r ∈ resps, r.status ≠ 429) → (fetchWithRetry state resps).1 = state) ∧
    (∀ (state now : Nat) (resps : List HttpResponse),
       scraperIsRateLimited state now = false → (∀ r ∈ resps, r.status ≠ 429) →
       scraperIsRateLimited (fetchWithRetry state resps).1 now = false) ∧
    (∀ scraper rateLimited analyzer now link,
       (analyzeLink scraper rateLimited analyzer now link).1 =
         link.withCategorization
           (analyzer link.url (effectiveContent scraper link)).tag
           (analyzer link.url (effectiveContent scraper link)).description now) := by
  have hstate : ∀ (state : Nat) (resps : List HttpResponse),
      (∀ r ∈ resps, r.status ≠ 429) → (fetchWithRetry state resps).1 = state := by
    intro state resps
    induction resps with
    | nil => intro _; rfl
    | cons r rest ih =>
      intro h
      have hr : r.status ≠ 429 := h r (List.mem_cons_self r rest)
      have hb : (r.status == 429) = false := by simpa using hr
      simp only [fetchWithRetry, hb, Bool.false_eq_true, if_false]
      split
      · split
        · rfl
        · split
          · exact ih (fun x hx => h x (List.mem_cons_of_mem r hx))
          · rfl
      · rfl
  refine ⟨?_, hstate, ?_, ?_⟩
  · intro scraper rateLimited analyzer now link hs
    cases htw : isTwitterUrl link.url with
    | false => simp [analyzeLink, htw]
    | true =>
      cases hsc : scraper link.url with
      | none => simp [analyzeLink, htw, hsc, contentTruthy]
      | some s =>
        have hne : s ≠ "" := by intro h; exact hs (by rw [hsc, h])
        simp [analyzeLink, htw, hsc, contentTruthy, hne]
  · intro state now resps hlim h429
    rw [hstate state resps h429]
    exact hlim
  · intro scraper rateLimited analyzer now link
    rfl

/-- Witness for C3: a rate-limited Twitter link with no fetchable content is
enqueued, and an auth-failure (401) response sequence leaves the rate-limit
state untouched. -/
theorem retryQueue_admission_iff_witness :
    ((analyzeLink (fun _ => none) true (fun _ _ => { tag := "Unknown", description := "" })
        0 demoTwitterLink).2 = true) ∧
    (fetchWithRetry 0 [{ status := 401, rateLimitReset := none, body := none }]).1 = 0 := by
  have h := retryQueue_admission_iff
  refine ⟨?_, ?_⟩
  · exact (h.1 (fun _ => none) true (fun _ _ => { tag := "Unknown", description := "" })
      0 demoTwitterLink (by decide)).2 ⟨by decide, rfl, rfl, rfl⟩
  · exact h.2.1 0 [{ status := 401, rateLimitReset := none, body := none }]
      (by intro r hr; simp at hr; rw [hr]; decide)
theorem rqlAux_length (rl : EmailLink → Except String (Option EmailLink)) :
    ∀ (q : List QueuedLink) (links : List EmailLink) (urls : List String),
      (retryQueuedLinksAux rl q links urls).1.length = links.length := by
  intro q
  induction q with
  | nil => intro links urls; rfl
  | cons a rest ih =>
    intro links urls
    cases h : rl a.link with
    | ok o =>
      cases o with
      | some x => simp [retryQueuedLinksAux, h, ih, List.length_set]
      | none => simp [retryQueuedLinksAux, h, ih]
    | error e => simp [retryQueuedLinksAux, h, ih]

theorem rqlAux_frame (rl : EmailLink → Except String (Option EmailLink)) :
    ∀ (q : List QueuedLink) (links : List EmailLink) (urls : List String) (j : Nat),
      (∀ e ∈ q, (∃ x, rl e.link = Except.ok (some x)) → e.index ≠ j) →
      (retryQueuedLinksAux rl q links urls).1[j]? = links[j]? := by
  intro q
  induction q with
  | nil => intro links urls j _; rfl
  | cons a rest ih =>
    intro links urls j hj
    cases h : rl a.link with
    | ok o =>
      cases o with
      | some x =>
        have hne : a.index ≠ j := hj a (List.mem_cons_self a rest) ⟨x, h⟩
        have : (links.set a.index x)[j]? = links[j]? :=
          List.getElem?_set_ne hne
        simp only [retryQueuedLinksAux, h]
        rw [ih (links.set a.index x) (urls ++ [a.link.url]) j
          (fun e he hx => hj e (List.mem_cons_of_mem a he) hx), this]
      | none =>
        simp only [retryQueuedLinksAux, h]
        exact ih links urls j (fun e he hx => hj e (List.mem_cons_of_mem a he) hx)
    | error e2 =>
      simp only [retryQueuedLinksAux, h]
      exact ih links urls j (fun e he hx => hj e (List.mem_cons_of_mem a he) hx)

theorem rqlAux_urls_mono (rl : EmailLink → Except String (Option EmailLink)) :
    ∀ (q : List QueuedLink) (links : List EmailLink) (urls : List String) (u : String),
      u ∈ urls → u ∈ (retryQueuedLinksAux rl q links urls).2 := by
  intro q
  induction q with
  | nil => intro links urls u hu; exact hu
  | cons a rest ih =>
    intro links urls u hu
    cases h : rl a.link with
    | ok o =>
      cases o with
      | some x =>
        simp only [retryQueuedLinksAux, h]
        exact ih _ _ u (List.mem_append_left _ hu)
      | none =>
        simp only [retryQueuedLinksAux, h]
        exact ih _ _ u hu
    | error e2 =>
      simp only [retryQueuedLinksAux, h]
      exact ih _ _ u hu

theorem rqlAux_hit (rl : EmailLink → Except String (Option EmailLink)) :
    ∀ (q : List QueuedLink) (links : List EmailLink) (urls : List String)
      (e : QueuedLink) (x : EmailLink),
      q.Pairwise (fun a b => a.index ≠ b.index) → e ∈ q →
      rl e.link = Except.ok (some x) → e.index < links.length →
      (retryQueuedLinksAux rl q links urls).1[e.index]? = some x ∧
      e.link.url ∈ (retryQueuedLinksAux rl q links urls).2 := by
  intro q
  induction q with
  | nil => intro links urls e x _ he; exact absurd he (List.not_mem_nil e)
  | cons a rest ih =>
    intro links urls e x hp he hrl hlt
    have hp2 := (List.pairwise_cons.mp hp).2
    have hhead := (List.pairwise_cons.mp hp).1
    rcases List.mem_cons.mp he with rfl | hmem
    · -- e is the head entry
      simp only [retryQueuedLinksAux, hrl]
      constructor
      · rw [rqlAux_frame rl rest (links.set e.index x) (urls ++ [e.link.url]) e.index
          (fun f hf _ => (hhead f hf).symm)]
        exact List.getElem?_set_eq_of_lt x hlt
      · exact rqlAux_urls_mono rl rest _ _ e.link.url
          (List.mem_append_right _ (List.mem_singleton.mpr rfl))
    · -- e is in the tail
      cases h : rl a.link with
      | ok o =>
        cases o with
        | some y =>
          simp only [retryQueuedLinksAux, h]
          exact ih (links.set a.index y) (urls ++ [a.link.url]) e x hp2 hmem hrl
            (by rw [List.length_set]; exact hlt)
        | none =>
          simp only [retryQueuedLinksAux, h]
          exact ih links urls e x hp2 hmem hrl hlt
      | error e2 =>
        simp only [retryQueuedLinksAux, h]
        exact ih links urls e x hp2 hmem hrl hlt

/-- C4: a queued entry whose retry succeeds has the enriched result written
into the result collection exactly at its recorded original index, positions
not written by a succeeding entry are unchanged (caller-visible ordering
preserved), the collection keeps its length, the entry's url is in the
updated-url set, and `handleRetryQueue`'s non-skip path passes exactly that
set to `exportResults`, which hands it to `notionWriter.updatePages` when the
Notion write succeeds. -/
theorem retrySuccess_overwrites_at_index :
    (∀ (retryLink : EmailLink → Except String (Option EmailLink))
       (queue : List QueuedLink) (links : List EmailLink),
       queue.Pairwise (fun a b => a.index ≠ b.index) →
       (∀ e ∈ queue, e.index < links.length) →
       ((retryQueuedLinks retryLink queue links).1.length = links.length ∧
        (∀ e ∈ queue, ∀ x, retryLink e.link = Except.ok (some x) →
          (retryQueuedLinks retryLink queue links).1[e.index]? = some x ∧
          e.link.url ∈ (retryQueuedLinks retryLink queue links).2) ∧
        (∀ j : Nat,
          (∀ e ∈ queue, (∃ x, retryLink e.link = Except.ok (some x)) → e.index ≠ j) →
          (retryQueuedLinks retryLink queue links).1[j]? = links[j]?))) ∧
    (∀ (retryLink : EmailLink → Except String (Option EmailLink))
       (resetTime now : Nat) (queue : List QueuedLink) (links : List EmailLink),
       ¬ getRateLimitWaitTime resetTime now > (MAX_WAIT_SECONDS : Int) →
       (handleRetryQueue retryLink resetTime now queue links).updatedUrls =
         some (retryQueuedLinks retryLink queue links).2) ∧
    (∀ (urls : List String), urls.length > 0 →
       (exportResultsUC (Except.ok ()) (some urls)).updatePagesArg = some urls) := by
  refine ⟨?_, ?_, ?_⟩
  · intro retryLink queue links hp hlt
    refine ⟨rqlAux_length retryLink queue links [], ?_, ?_⟩
    · intro e he x hx
      exact rqlAux_hit retryLink queue links [] e x hp he hx (hlt e he)
    · intro j hj
      exact rqlAux_frame retryLink queue links [] j hj
  · intro retryLink resetTime now queue links h
    simp [handleRetryQueue, h]
  · intro urls hurls
    simp [exportResultsUC, hurls]

/-- Witness for C4: a one-entry queue over a two-element collection; the
retry succeeds, overwrites index 1 and leaves index 0 alone, and the url
reaches `updatePages`. -/
theorem retrySuccess_overwrites_at_index_witness :
    (retryQueuedLinks demoRetry [{ link := demoTwitterLink, index := 1 }]
        [demoLink0, demoTwitterLink]).1[1]? =
      some (demoTwitterLink.withCategorization "Tech" "demo" 7) ∧
    (retryQueuedLinks demoRetry [{ link := demoTwitterLink, index := 1 }]
        [demoLink0, demoTwitterLink]).1[0]? = some demoLink0 ∧
    demoTwitterLink.url ∈
      (retryQueuedLinks demoRetry [{ link := demoTwitterLink, index := 1 }]
        [demoLink0, demoTwitterLink]).2 ∧
    (exportResultsUC (Except.ok ()) (some [demoTwitterLink.url])).updatePagesArg =
      some [demoTwitterLink.url] := by
  have h := retrySuccess_overwrites_at_index
  have hmain := h.1 demoRetry [{ link := demoTwitterLink, index := 1 }]
    [demoLink0, demoTwitterLink] (by decide) (by decide)
  refine ⟨?_, ?_, ?_, ?_⟩
  · exact (hmain.2.1 { link := demoTwitterLink, index := 1 } (by decide)
      (demoTwitterLink.withCategorization "Tech" "demo" 7) rfl).1
  · have := hmain.2.2 0 (by
      intro e he _
      simp only [List.mem_singleton] at he
      subst he
      decide)
    simpa using this
  · exact (hmain.2.1 { link := demoTwitterLink, index := 1 } (by decide)
      (demoTwitterLink.withCategorization "Tech" "demo" 7) rfl).2
  · exact h.2.2 [demoTwitterLink.url] (by decide)
theorem waitLoop_final_ge (endWait : Nat) :
    ∀ (fuel now : Nat), ceilDivNat (endWait - now) 1000 ≤ fuel →
      endWait ≤ (waitLoop fuel now endWait).1 := by
  intro fuel
  induction fuel with
  | zero =>
    intro now h
    simp only [waitLoop]
    unfold ceilDivNat at h
    omega
  | succ n ih =>
    intro now h
    by_cases hlt : now < endWait
    · simp only [waitLoop, if_pos hlt]
      exact ih (now + 1000) (by unfold ceilDivNat at h ⊢; omega)
    · simp only [waitLoop, if_neg hlt]
      omega

theorem waitLoop_updates (endWait : Nat) :
    ∀ (fuel now : Nat) (u : Nat), u ∈ (waitLoop fuel now endWait).2 →
      u % COUNTDOWN_INTERVAL = 0 ∧ 0 < u := by
  intro fuel
  induction fuel with
  | zero => intro now u hu; simp [waitLoop] at hu
  | succ n ih =>
    intro now u hu
    by_cases hlt : now < endWait
    · simp only [waitLoop, if_pos hlt, List.mem_append] at hu
      rcases hu with hu | hu
      · by_cases hb : (decide (ceilDivNat (endWait - now) 1000 > 0) &&
            (ceilDivNat (endWait - now) 1000 % COUNTDOWN_INTERVAL == 0)) = true
        · rw [if_pos hb] at hu
          simp only [List.mem_singleton] at hu
          subst hu
          simp only [Bool.and_eq_true, decide_eq_true_eq, beq_iff_eq] at hb
          exact ⟨hb.2, hb.1⟩
        · rw [if_neg hb] at hu
          simp at hu
      · exact ih (now + 1000) u hu
    · simp [waitLoop, if_neg hlt] at hu

/-- The `spinner.update` predicate never counts a retry event as a wait. -/
theorem countP_retried_map_zero (queue : List QueuedLink) :
    (queue.map (fun q => REvent.retriedOne q.link.url)).countP
      (fun ev => match ev with | REvent.waitedUntil _ => true | _ => false) = 0 := by
  induction queue with
  | nil => rfl
  | cons a rest ih => simp [List.countP_cons, ih]

/-- C5: no retry is attempted before the wait window elapses: the countdown
loop only exits once the clock has reached
`getRateLimitResetTime() + RATE_LIMIT_BUFFER_MS`; progress notifications fire
only at the fixed `COUNTDOWN_INTERVAL` (only remaining-second values that are
positive multiples of 10), not on every tick; and the wait is a single shared
delay for all queued entries: the non-skip retry trace starts with exactly
one `waitedUntil` event, before every per-entry retry event. -/
theorem wait_window_respected :
    (∀ resetTime now : Nat,
       resetTime + RATE_LIMIT_BUFFER_MS ≤ (waitForRateLimitReset resetTime now).1) ∧
    (∀ resetTime now u, u ∈ (waitForRateLimitReset resetTime now).2 →
       u % COUNTDOWN_INTERVAL = 0 ∧ 0 < u) ∧
    (∀ (retryLink : EmailLink → Except String (Option EmailLink))
       (resetTime now : Nat) (queue : List QueuedLink) (links : List EmailLink),
       ¬ getRateLimitWaitTime resetTime now > (MAX_WAIT_SECONDS : Int) →
       (handleRetryQueue retryLink resetTime now queue links).events =
         [REvent.waitedUntil (resetTime + RATE_LIMIT_BUFFER_MS),
          REvent.clearedRateLimit] ++
           queue.map (fun q => REvent.retriedOne q.link.url) ++
           [REvent.wroteCsv, REvent.exported] ∧
       (handleRetryQueue retryLink resetTime now queue links).events.countP
         (fun ev => match ev with | REvent.waitedUntil _ => true | _ => false) = 1) := by
  refine ⟨?_, ?_, ?_⟩
  · intro resetTime now
    exact waitLoop_final_ge (resetTime + RATE_LIMIT_BUFFER_MS) _ now (le_refl _)
  · intro resetTime now u hu
    exact waitLoop_updates (resetTime + RATE_LIMIT_BUFFER_MS) _ now u hu
  · intro retryLink resetTime now queue links h
    constructor
    · simp [handleRetryQueue, h]
    · simp [handleRetryQueue, h, List.countP_append, List.countP_cons,
        countP_retried_map_zero]

/-- Witness for C5 at a concrete reset time: reset 20000 ms, clock 3500 ms,
buffer 5000 ms; the loop exits at 25500 ≥ 25000, updates fire only at 20 and
10 seconds remaining, and a one-entry queue produces a trace led by the
single shared wait. -/
theorem wait_window_respected_witness :
    (waitForRateLimitReset 20000 3500).1 = 25500 ∧
    25000 ≤ (waitForRateLimitReset 20000 3500).1 ∧
    (waitForRateLimitReset 20000 3500).2 = [20, 10] ∧
    (20 % COUNTDOWN_INTERVAL = 0 ∧ 0 < 20) ∧
    (handleRetryQueue demoRetry 20000 3500
        [{ link := demoTwitterLink, index := 0 }] [demoTwitterLink]).events =
      [REvent.waitedUntil 25000, REvent.clearedRateLimit,
       REvent.retriedOne demoTwitterLink.url, REvent.wroteCsv, REvent.exported] := by
  have h := wait_window_respected
  refine ⟨by decide, ?_, by decide, ?_, ?_⟩
  · exact h.1 20000 3500
  · exact h.2.1 20000 3500 20 (by decide)
  · have := (h.2.2 demoRetry 20000 3500
      [{ link := demoTwitterLink, index := 0 }] [demoTwitterLink] (by decide)).1
    simpa using this
theorem queueMeasure_cons (e : RetryEntry) (rest : List RetryEntry) :
    queueMeasure (e :: rest) =
      (MAX_RETRY_ATTEMPTS - e.attempts + 1) + queueMeasure rest := by
  simp [queueMeasure]

theorem runCycle_measure_le (outcome : RetryEntry → RetryOutcome) :
    ∀ q : List RetryEntry,
      queueMeasure (runCycle outcome q).2.2 ≤ queueMeasure q := by
  intro q
  induction q with
  | nil => simp [runCycle, queueMeasure]
  | cons e rest ih =>
    cases ho : outcome e with
    | success =>
      simp only [runCycle, ho]
      rw [queueMeasure_cons]
      omega
    | rateLimited =>
      by_cases hm : MAX_RETRY_ATTEMPTS ≤ e.attempts + 1
      · simp only [runCycle, ho, if_pos hm]
        rw [queueMeasure_cons]
        omega
      · simp only [runCycle, ho, if_neg hm]
        rw [queueMeasure_cons, queueMeasure_cons]
        simp only []
        omega
    | stalled =>
      simp only [runCycle, ho]
      rw [queueMeasure_cons, queueMeasure_cons]
      omega

theorem runCycle_measure_lt (outcome : RetryEntry → RetryOutcome) :
    ∀ q : List RetryEntry,
      ¬ ((runCycle outcome q).1 = [] ∧ (runCycle outcome q).2.1 = [] ∧
         (runCycle outcome q).2.2 = q) →
      queueMeasure (runCycle outcome q).2.2 < queueMeasure q := by
  intro q
  induction q with
  | nil => intro h; exact absurd ⟨rfl, rfl, rfl⟩ h
  | cons e rest ih =>
    intro h
    cases ho : outcome e with
    | success =>
      have hle := runCycle_measure_le outcome rest
      simp only [runCycle, ho]
      rw [queueMeasure_cons]
      omega
    | rateLimited =>
      have hle := runCycle_measure_le outcome rest
      by_cases hm : MAX_RETRY_ATTEMPTS ≤ e.attempts + 1
      · simp only [runCycle, ho, if_pos hm]
        rw [queueMeasure_cons]
        omega
      · simp only [runCycle, ho, if_neg hm]
        rw [queueMeasure_cons, queueMeasure_cons]
        simp only []
        omega
    | stalled =>
      simp only [runCycle, ho] at h
      simp only [runCycle, ho]
      rw [queueMeasure_cons, queueMeasure_cons]
      have hne : ¬ ((runCycle outcome rest).1 = [] ∧ (runCycle outcome rest).2.1 = [] ∧
          (runCycle outcome rest).2.2 = rest) := by
        intro ⟨h1, h2, h3⟩
        exact h ⟨h1, h2, by rw [h3]⟩
      have := ih hne
      omega

theorem retryLoop_terminal (outcome : Nat → RetryEntry → RetryOutcome) :
    ∀ (fuel : Nat) (queue resAcc exhAcc : List RetryEntry) (cycles : Nat),
      queueMeasure queue < fuel →
      ((retryLoop outcome fuel queue resAcc exhAcc cycles).queue = [] ∨
       (retryLoop outcome fuel queue resAcc exhAcc cycles).stoppedNoProgress = true) := by
  intro fuel
  induction fuel with
  | zero => intro queue resAcc exhAcc cycles h; omega
  | succ n ih =>
    intro queue resAcc exhAcc cycles h
    by_cases he : queue.isEmpty
    · left
      simp only [retryLoop, if_pos he]
      exact List.isEmpty_iff.mp he
    · by_cases hnp : ((runCycle (outcome cycles) queue).1.isEmpty &&
          (runCycle (outcome cycles) queue).2.1.isEmpty &&
          ((runCycle (outcome cycles) queue).2.2 == queue)) = true
      · right
        simp only [retryLoop, if_neg he, if_pos hnp]
      · have hne : ¬ ((runCycle (outcome cycles) queue).1 = [] ∧
            (runCycle (outcome cycles) queue).2.1 = [] ∧
            (runCycle (outcome cycles) queue).2.2 = queue) := by
          intro ⟨h1, h2, h3⟩
          exact hnp (by simp [List.isEmpty_iff, h1, h2, h3])
        have hlt := runCycle_measure_lt (outcome cycles) queue hne
        have : queueMeasure (runCycle (outcome cycles) queue).2.2 < n := by omega
        have hres := ih (runCycle (outcome cycles) queue).2.2 (resAcc ++ (runCycle (outcome cycles) queue).1)
          (exhAcc ++ (runCycle (outcome cycles) queue).2.1) (cycles + 1) this
        simpa only [retryLoop, if_neg he, if_neg hnp] using hres

theorem runCycle_requeues (outcome : RetryEntry → RetryOutcome) :
    ∀ (queue : List RetryEntry) (e : RetryEntry), e ∈ queue →
      outcome e = RetryOutcome.rateLimited → e.attempts + 1 < MAX_RETRY_ATTEMPTS →
      ({ url := e.url, originalIndex := e.originalIndex, attempts := e.attempts + 1 } :
        RetryEntry) ∈ (runCycle outcome queue).2.2 := by
  intro queue
  induction queue with
  | nil => intro e he; exact absurd he (List.not_mem_nil e)
  | cons a rest ih =>
    intro e he ho hlt
    rcases List.mem_cons.mp he with rfl | hmem
    · simp only [runCycle, ho, if_neg (by omega : ¬ MAX_RETRY_ATTEMPTS ≤ e.attempts + 1)]
      exact List.mem_cons_self _ _
    · have hmem2 := ih e hmem ho hlt
      cases ha : outcome a with
      | success => simpa only [runCycle, ha] using hmem2
      | rateLimited =>
        by_cases hm : MAX_RETRY_ATTEMPTS ≤ a.attempts + 1
        · simpa only [runCycle, ha, if_pos hm] using hmem2
        · simp only [runCycle, ha, if_neg hm]
          exact List.mem_cons_of_mem _ hmem2
      | stalled =>
        simp only [runCycle, ha]
        exact List.mem_cons_of_mem _ hmem2

/-- C1 (loop modelled from the spec; `RetryHandlerService` /
`LinkExtractionOrchestrator` are absent from the snapshot): the retry cycle
loop always terminates, and only with the queue empty or after a cycle that
resolved no entry and exhausted none (the no-progress guard; the
all-entries-at-budget case is subsumed, since an entry reaching
`MAX_RETRY_ATTEMPTS` is exhausted and leaves the queue); each rate-limited
entry below the budget is re-queued with its attempts counter incremented;
the budget is 3; and in the concrete §8 scenario — 3 queued entries, every
retry rate-limited — after exactly 3 cycles all 3 entries are exhausted
(attempts = 3), the queue is empty and no 4th cycle runs. -/
theorem retryLoop_terminates_and_exhausts :
    MAX_RETRY_ATTEMPTS = 3 ∧
    (∀ (outcome : Nat → RetryEntry → RetryOutcome) (queue : List RetryEntry),
       (retryLoopRun outcome queue).queue = [] ∨
       (retryLoopRun outcome queue).stoppedNoProgress = true) ∧
    (∀ (outcome : RetryEntry → RetryOutcome) (queue : List RetryEntry)
       (e : RetryEntry), e ∈ queue → outcome e = RetryOutcome.rateLimited →
       e.attempts + 1 < MAX_RETRY_ATTEMPTS →
       ({ url := e.url, originalIndex := e.originalIndex,
          attempts := e.attempts + 1 } : RetryEntry) ∈
         (runCycle outcome queue).2.2) ∧
    retryLoopRun allRateLimited demoQueue3 =
      { resolved := []
        exhausted :=
          [{ url := "https://x.com/a/status/1", originalIndex := 0, attempts := 3 },
           { url := "https://x.com/b/status/2", originalIndex := 1, attempts := 3 },
           { url := "https://x.com/c/status/3", originalIndex := 2, attempts := 3 }]
        queue := []
        cycles := 3
        stoppedNoProgress := false } := by
  refine ⟨rfl, ?_, runCycle_requeues, rfl⟩
  intro outcome queue
  exact retryLoop_terminal outcome (queueMeasure queue + 1) queue [] [] 0
    (Nat.lt_succ_self _)

/-- Witness for C1: in the §8 scenario's first cycle, the first entry is
re-queued with its counter incremented from 0 to 1. -/
theorem retryLoop_terminates_and_exhausts_witness :
    ({ url := "https://x.com/a/status/1", originalIndex := 0, attempts := 1 } :
      RetryEntry) ∈ (runCycle (allRateLimited 0) demoQueue3).2.2 := by
  have h := retryLoop_terminates_and_exhausts
  exact h.2.2.1 (allRateLimited 0) demoQueue3
    { url := "https://x.com/a/status/1", originalIndex := 0, attempts := 0 }
    (by decide) rfl (by decide)
